import Mathlib

/-!
# Verification of the VectorBrain RAG chat front-end client

Shallow embedding of the state and event handlers of
`src/rag-frontend/src/App.jsx`, together with theorems checking the
specification's claims about the streaming chat channel, the send/clear
operations, and the document-directory client.

Modelling conventions:
* React `useState` pieces (`messages`, `isConnected`, `isStreaming`) and the
  mutable ref `currentResponseRef` form one record `ChatState`.
* An inbound WebSocket payload either parses to a JSON envelope
  `{ type, data }` (`some Envelope`) or does not parse (`none`); `JSON.parse`
  throwing in the handler is modelled by a `Bool` "threw" component of the
  handler's result, since the source wraps the *installation* of `onmessage`
  in try/catch but not its later execution.
* `fetch` results are modelled as `Except Unit r`: `Except.error ()` is a
  rejected promise (network failure), `Except.ok r` is a resolved response
  (of any HTTP status - `fetch` resolves on non-2xx statuses).
-/

inductive Role where
  | user
  | assistant
  | error
deriving DecidableEq, Repr

structure Message where
  role : Role
  content : String
  streaming : Bool
deriving DecidableEq, Repr

/-- The inbound JSON envelope `{ type: string, data: string }` of the
WebSocket protocol. The source reads `data.type` and `data.data`. -/
structure Envelope where
  etype : String
  edata : String
deriving DecidableEq, Repr

/-- Client chat state: the `messages` array, the `isConnected` and
`isStreaming` `useState` flags, and the `currentResponseRef` buffer. -/
structure ChatState where
  messages : List Message
  isConnected : Bool
  isStreaming : Bool
  buffer : String
deriving DecidableEq, Repr

/-- Update of the last element of `messages` performed by the `token` case:
`newMessages[newMessages.length - 1].content = currentResponseRef.current`
guarded by `lastMessage && lastMessage.type === 'assistant' &&
lastMessage.isStreaming`. -/
def tokenUpdate (buf : String) : List Message → List Message
  | [] => []
  | [m] =>
      if m.role = Role.assistant ∧ m.streaming = true then
        [{ m with content := buf }]
      else
        [m]
  | m :: rest => m :: tokenUpdate buf rest

/-- Update of the last element of `messages` performed by the `complete`
case: `lastMessage.isStreaming = false` guarded by
`lastMessage && lastMessage.type === 'assistant'`. -/
def completeUpdate : List Message → List Message
  | [] => []
  | [m] =>
      if m.role = Role.assistant then
        [{ m with streaming := false }]
      else
        [m]
  | m :: rest => m :: completeUpdate rest

/-- The `switch (data.type)` of `connectWebSocket.onmessage`, acting on a
successfully parsed envelope. Unknown event types fall through the switch
and change nothing. -/
def handleEvent (e : Envelope) (s : ChatState) : ChatState :=
  if e.etype = "start" then
    { s with
      isStreaming := true
      buffer := ""
      messages := s.messages ++ [⟨Role.assistant, "", true⟩] }
  else if e.etype = "token" then
    let buf := s.buffer ++ e.edata
    { s with
      buffer := buf
      messages := tokenUpdate buf s.messages }
  else if e.etype = "complete" then
    { s with
      isStreaming := false
      messages := completeUpdate s.messages }
  else if e.etype = "error" then
    { s with
      isStreaming := false
      messages := s.messages ++ [⟨Role.error, e.edata, false⟩] }
  else
    s

/-- The whole `onmessage` handler. `JSON.parse(event.data)` runs first and
is not guarded by any try/catch that is live when the callback fires, so an
unparseable payload makes the handler throw before any state update; the
second component records whether the handler threw. -/
def onmessage (payload : Option Envelope) (s : ChatState) : ChatState × Bool :=
  match payload with
  | none => (s, true)
  | some e => (handleEvent e s, false)

/-- `connectWebSocket.onclose`: `setIsConnected(false); setIsStreaming(false)`.
The `messages` array and the response buffer are not touched. -/
def onclose (s : ChatState) : ChatState :=
  { s with isConnected := false, isStreaming := false }

/-- Fold of the `onmessage` switch over a sequence of parsed inbound
events, in arrival order. -/
def runEvents (es : List Envelope) (s : ChatState) : ChatState :=
  es.foldl (fun acc e => handleEvent e acc) s

/-- JavaScript `String.prototype.trim()`: strip leading and trailing
whitespace characters (modelled over the ASCII whitespace class). -/
def jsTrim (s : String) : String :=
  ⟨((s.data.dropWhile Char.isWhitespace).reverse.dropWhile Char.isWhitespace).reverse⟩

/-- `sendMessage`. Returns the new chat state, the envelope transmitted on
the socket (`none` when the guard rejects), and the new value of the
`currentMessage` input field. The guard is
`if (!currentMessage.trim() || !isConnected || isStreaming) return;`. -/
def sendMessage (s : ChatState) (currentMessage : String) :
    ChatState × Option String × String :=
  if jsTrim currentMessage = "" ∨ s.isConnected = false ∨ s.isStreaming = true then
    (s, none, currentMessage)
  else
    ({ s with messages := s.messages ++ [⟨Role.user, currentMessage, false⟩] },
     some currentMessage,
     "")

/-- Notification toast kinds surfaced by `antMessage`. -/
inductive Notif where
  | successMsg
  | failureMsg
deriving DecidableEq, Repr

/-- `clearChat`: `await fetch('/chat/clear', { method: 'POST' })` followed
unconditionally by `setMessages([])` and a success toast; the catch branch
(promise rejection only) leaves `messages` untouched and shows a failure
toast. The resolved HTTP status code is never inspected. -/
def clearChat (fetchResult : Except Unit Nat) (messages : List Message) :
    List Message × Notif :=
  match fetchResult with
  | Except.error _ => (messages, Notif.failureMsg)
  | Except.ok _ => ([], Notif.successMsg)

/-- A status code counts as success on the backend contract (2xx). -/
def isSuccessStatus (code : Nat) : Bool :=
  decide (200 ≤ code ∧ code < 300)

structure DocumentRecord where
  filename : String
  dtype : String
  size : Nat
deriving DecidableEq, Repr

/-- A parsed JSON value delivered by `response.json()`, at the granularity
the client distinguishes: either a well-formed array of document records,
or any other JSON value (such as the error object a non-2xx response
carries), modelled by its serialized text. -/
inductive JsonBody where
  | docs : List DocumentRecord → JsonBody
  | other : String → JsonBody
deriving DecidableEq, Repr

/-- A resolved `fetch` response: the HTTP status code together with the
outcome of `await response.json()` (`Except.error ()` when the body is not
valid JSON, which makes `json()` reject). `fetch` resolves on non-2xx
statuses, so a resolved response may carry any status. -/
structure FetchResponse where
  status : Nat
  jsonBody : Except Unit JsonBody
deriving Repr

/-- `fetchDocuments`: `response.ok` and the status code are never checked.
Only a rejected `fetch` or a rejected `response.json()` reaches the catch
branch, which keeps the previous snapshot and shows the failure toast
(second component `true`). Any resolved response whose body parses -
whatever its status - has its parsed body passed straight to
`setDocuments`, replacing the snapshot wholesale. -/
def fetchDocuments (result : Except Unit FetchResponse)
    (documents : JsonBody) : JsonBody × Bool :=
  match result with
  | Except.error _ => (documents, true)
  | Except.ok resp =>
    match resp.jsonBody with
    | Except.error _ => (documents, true)
    | Except.ok body => (body, false)

inductive UploadStatus where
  | uploading
  | success
  | uploadError
deriving DecidableEq, Repr

/-- The state touched by `handleFileUpload`: the `uploadProgress` badge and
the document snapshot. -/
structure UploadState where
  progress : Option (String × UploadStatus)
  documents : JsonBody
deriving DecidableEq, Repr

/-- `handleFileUpload`. `files` is `event.target.files`; the handler reads
`files[0]` and returns immediately when there is none. Otherwise it sets the
`uploading` badge, issues `POST /upload`, and on `response.ok` refreshes the
snapshot via `fetchDocuments` (issuing `GET /documents`) and sets the
`success` badge; a thrown error or a non-ok response sets the `error` badge.
The second component lists the HTTP requests issued. (The delayed
`setTimeout` badge auto-clear is a later tick and outside this synchronous
model.) -/
def handleFileUpload (files : List String) (uploadResult : Except Unit Bool)
    (listResult : Except Unit FetchResponse) (s : UploadState) :
    UploadState × List String :=
  match files.head? with
  | none => (s, [])
  | some f =>
    match uploadResult with
    | Except.error _ =>
        ({ s with progress := some (f, UploadStatus.uploadError) }, ["POST /upload"])
    | Except.ok ok =>
        if ok then
          ({ progress := some (f, UploadStatus.success)
             documents := (fetchDocuments listResult s.documents).1 },
           ["POST /upload", "GET /documents"])
        else
          ({ s with progress := some (f, UploadStatus.uploadError) }, ["POST /upload"])

/-- A freshly connected client: empty transcript, connected, not
streaming, empty response buffer. -/
def connectedInit : ChatState :=
  ⟨[], true, false, ""⟩

/-- C2 counterexample. The claim says the handler "does not throw" on a
payload that cannot be parsed; but `JSON.parse` runs unguarded inside the
callback, so the handler does throw: on an unparseable payload from the
fresh connected state the thrown flag is `true`. -/
theorem onmessage_malformed_throws :
    (onmessage none connectedInit).2 = true := by
  rfl

/-- C2 amended: on an unparseable inbound payload the handler propagates
the parse exception (it throws), but the transcript, the connection flag,
the streaming flag and the buffer are all left unchanged. -/
theorem onmessage_malformed_state_unchanged (s : ChatState) :
    onmessage none s = (s, true) := by
  rfl

/-- C3 counterexample. After `start` then `token "x"`, closing the channel
leaves the in-progress entry's own `streaming` flag still `true` (only the
global flag is cleared), so the claim that the entry's flag is forced to
false fails. -/
theorem onclose_entry_flag_not_cleared :
    (onclose (runEvents [⟨"start", ""⟩, ⟨"token", "x"⟩] connectedInit)).messages
        = [⟨Role.assistant, "x", true⟩] ∧
    ((onclose (runEvents [⟨"start", ""⟩, ⟨"token", "x"⟩] connectedInit)).messages.all
        fun m => m.streaming = false) = false := by
  constructor
  · rfl
  · rfl

/-- C3 amended: when the channel closes mid-stream, the connection flag
becomes disconnected and the global `isStreaming` flag is forced false, but
the transcript entries - the in-progress entry's text and its own
`streaming` flag included - are left exactly as they were, so the partial
text is retained and the entry's flag stays `true`. -/
theorem onclose_spec (s : ChatState) :
    (onclose s).isConnected = false ∧ (onclose s).isStreaming = false ∧
    (onclose s).messages = s.messages ∧ (onclose s).buffer = s.buffer := by
  exact ⟨rfl, rfl, rfl, rfl⟩

/-- C4 counterexample. A resolved non-2xx response (status 500, a failed
call on the backend's 2xx-means-success contract) still empties the
transcript and surfaces a success toast: `clearChat` never checks
`response.ok`, so atomicity on error fails for HTTP-level failures. -/
theorem clearChat_500_clears_anyway :
    isSuccessStatus 500 = false ∧
    clearChat (Except.ok 500) [⟨Role.user, "hi", false⟩] = ([], Notif.successMsg) ∧
    ([] : List Message) ≠ [⟨Role.user, "hi", false⟩] := by
  refine ⟨rfl, rfl, ?_⟩
  intro h
  cases h

/-- C4 amended: `clearChat` calls the reset endpoint and then empties the
transcript; only when the call fails at the network level (the promise
rejects) is the transcript left exactly as it was and a failure
notification surfaced, while any resolved response - whatever its HTTP
status - empties the transcript and shows a success notification. -/
theorem clearChat_spec (msgs : List Message) (code : Nat) :
    clearChat (Except.error ()) msgs = (msgs, Notif.failureMsg) ∧
    clearChat (Except.ok code) msgs = ([], Notif.successMsg) := by
  exact ⟨rfl, rfl⟩

/-- C5: `sendMessage` is rejected - transcript untouched, nothing
transmitted, input preserved - when the trimmed input is empty, the client
is disconnected, or a response is streaming; otherwise it appends exactly
one user entry carrying the input and transmits exactly one envelope. -/
theorem sendMessage_spec (s : ChatState) (input : String) :
    (jsTrim input = "" ∨ s.isConnected = false ∨ s.isStreaming = true →
      sendMessage s input = (s, none, input)) ∧
    (jsTrim input ≠ "" → s.isConnected = true → s.isStreaming = false →
      sendMessage s input =
        ({ s with messages := s.messages ++ [⟨Role.user, input, false⟩] },
         some input, "")) := by
  constructor
  · intro h
    simp only [sendMessage, if_pos h]
  · intro h1 h2 h3
    have hguard : ¬(jsTrim input = "" ∨ s.isConnected = false ∨ s.isStreaming = true) := by
      push_neg
      refine ⟨h1, ?_, ?_⟩
      · simp [h2]
      · simp [h3]
    simp only [sendMessage, if_neg hguard]

/-- C5 witness: on a connected, non-streaming state the send of `"hi"`
appends one user entry and transmits it; on a disconnected state the send
of `"hi"` is rejected without any effect. -/
theorem sendMessage_spec_witness :
    sendMessage connectedInit "hi" =
      ({ connectedInit with messages := [⟨Role.user, "hi", false⟩] },
       some "hi", "") ∧
    sendMessage ⟨[], false, false, ""⟩ "hi" = (⟨[], false, false, ""⟩, none, "hi") := by
  constructor
  · exact (sendMessage_spec connectedInit "hi").2 (by decide) rfl rfl
  · exact (sendMessage_spec ⟨[], false, false, ""⟩ "hi").1 (Or.inr (Or.inl rfl))

/-- C8 counterexample. A resolved 500 response whose JSON error body
parses (a failed call on the backend's 2xx contract and on the spec's
document-operation failure taxonomy) replaces the snapshot with the parsed
error body and shows no failure notification: `fetchDocuments` never
checks `response.ok`, so the claim's failure branch fails. -/
theorem fetchDocuments_500_replaces_snapshot :
    isSuccessStatus 500 = false ∧
    fetchDocuments
        (Except.ok ⟨500, Except.ok (JsonBody.other "Internal Server Error")⟩)
        (JsonBody.docs [⟨"report.txt", "txt", 10⟩]) =
      (JsonBody.other "Internal Server Error", false) ∧
    JsonBody.other "Internal Server Error" ≠
      JsonBody.docs [⟨"report.txt", "txt", 10⟩] := by
  refine ⟨rfl, rfl, ?_⟩
  intro h
  cases h

/-- C8 amended: only when the fetch rejects at the network level, or the
response body fails to parse as JSON, is the previous snapshot left in
place unchanged with a failure notification shown; any resolved response
with a parseable JSON body - whatever its HTTP status - replaces the
snapshot wholesale with the parsed body (so a well-formed response
installs the returned collection in the backend's returned order, and a
JSON-bodied error response installs the error body), with no
notification. -/
theorem fetchDocuments_spec (snapshot body : JsonBody) (code : Nat) :
    fetchDocuments (Except.error ()) snapshot = (snapshot, true) ∧
    fetchDocuments (Except.ok ⟨code, Except.error ()⟩) snapshot =
      (snapshot, true) ∧
    fetchDocuments (Except.ok ⟨code, Except.ok body⟩) snapshot =
      (body, false) := by
  exact ⟨rfl, rfl, rfl⟩

/-- C10: with an empty file list the upload handler is a no-op: no HTTP
request is issued, the badge is untouched, the snapshot is unchanged. -/
theorem handleFileUpload_no_file (files : List String)
    (uploadResult : Except Unit Bool)
    (listResult : Except Unit FetchResponse) (s : UploadState)
    (h : files = []) :
    handleFileUpload files uploadResult listResult s = (s, []) := by
  subst h
  rfl

/-- C10 witness: the concrete empty-selection invocation is a no-op. -/
theorem handleFileUpload_no_file_witness :
    handleFileUpload [] (Except.ok true)
        (Except.ok ⟨200, Except.ok (JsonBody.docs [])⟩)
        ⟨none, JsonBody.docs []⟩ =
      (⟨none, JsonBody.docs []⟩, []) :=
  handleFileUpload_no_file [] (Except.ok true)
    (Except.ok ⟨200, Except.ok (JsonBody.docs [])⟩) ⟨none, JsonBody.docs []⟩ rfl

instance : Inhabited Message :=
  ⟨⟨Role.user, "", false⟩⟩

/-- Unfolding of the `start` case of the switch. -/
theorem handleEvent_start (d : String) (s : ChatState) :
    handleEvent ⟨"start", d⟩ s =
      { s with
        isStreaming := true
        buffer := ""
        messages := s.messages ++ [⟨Role.assistant, "", true⟩] } := rfl

/-- Unfolding of the `token` case of the switch. -/
theorem handleEvent_token (d : String) (s : ChatState) :
    handleEvent ⟨"token", d⟩ s =
      { s with
        buffer := s.buffer ++ d
        messages := tokenUpdate (s.buffer ++ d) s.messages } := rfl

/-- Unfolding of the `complete` case of the switch. -/
theorem handleEvent_complete (d : String) (s : ChatState) :
    handleEvent ⟨"complete", d⟩ s =
      { s with
        isStreaming := false
        messages := completeUpdate s.messages } := rfl

/-- Unfolding of the `error` case of the switch. -/
theorem handleEvent_error (d : String) (s : ChatState) :
    handleEvent ⟨"error", d⟩ s =
      { s with
        isStreaming := false
        messages := s.messages ++ [⟨Role.error, d, false⟩] } := rfl

theorem runEvents_nil (s : ChatState) : runEvents [] s = s := rfl

theorem runEvents_cons (e : Envelope) (es : List Envelope) (s : ChatState) :
    runEvents (e :: es) s = runEvents es (handleEvent e s) := rfl

theorem tokenUpdate_cons_of_ne_nil (buf : String) (x : Message)
    (l : List Message) (h : l ≠ []) :
    tokenUpdate buf (x :: l) = x :: tokenUpdate buf l := by
  cases l with
  | nil => exact absurd rfl h
  | cons y ys => rfl

/-- `tokenUpdate` touches exactly the last element of the array. -/
theorem tokenUpdate_append_singleton (buf : String) (pre : List Message)
    (m : Message) :
    tokenUpdate buf (pre ++ [m]) =
      pre ++
        [if m.role = Role.assistant ∧ m.streaming = true then
          { m with content := buf }
        else
          m] := by
  induction pre with
  | nil =>
      simp only [List.nil_append, tokenUpdate]
      split <;> rfl
  | cons x xs ih =>
      rw [List.cons_append, tokenUpdate_cons_of_ne_nil buf x (xs ++ [m]) (by simp),
        ih, List.cons_append]

/-- Streaming accumulation: from a state whose transcript ends with the
in-progress assistant entry holding exactly the buffer, a run of `token`
events extends that entry (and the buffer) by the fragments in delivery
order. -/
theorem runEvents_tokens (fs : List String) (pre : List Message)
    (conn strm : Bool) (buf : String) :
    runEvents (fs.map fun f => Envelope.mk "token" f)
        (ChatState.mk (pre ++ [Message.mk Role.assistant buf true]) conn strm buf) =
      ChatState.mk (pre ++ [Message.mk Role.assistant (fs.foldl (· ++ ·) buf) true])
        conn strm (fs.foldl (· ++ ·) buf) := by
  induction fs generalizing buf with
  | nil => rfl
  | cons f fs ih =>
      rw [List.map_cons, runEvents_cons, handleEvent_token, List.foldl_cons]
      simp only [tokenUpdate_append_singleton, and_self, if_true, ite_true]
      exact ih (buf ++ f)

/-- C6: a `start` event followed by `N` `token` events carrying fragments
`f1..fN` appends exactly one assistant entry whose text is the
concatenation of the fragments in delivery order, leaves the buffer equal
to that concatenation (whatever it held before the `start`), and sets it
streaming. -/
theorem start_then_tokens_concat (s : ChatState) (d : String) (fs : List String) :
    runEvents (Envelope.mk "start" d :: fs.map fun f => Envelope.mk "token" f) s =
      ChatState.mk
        (s.messages ++ [Message.mk Role.assistant (String.join fs) true])
        s.isConnected true (String.join fs) := by
  rw [runEvents_cons, handleEvent_start]
  exact runEvents_tokens fs s.messages s.isConnected true ""

/-- The guard of the `token` case read off the end of the array:
`lastMessage && lastMessage.type === 'assistant' && lastMessage.isStreaming`. -/
def lastIsStreamingAssistant (msgs : List Message) : Bool :=
  match msgs.getLast? with
  | none => false
  | some m => decide (m.role = Role.assistant) && m.streaming

theorem tokenUpdate_of_guard_false (buf : String) (msgs : List Message)
    (h : lastIsStreamingAssistant msgs = false) :
    tokenUpdate buf msgs = msgs := by
  induction msgs with
  | nil => rfl
  | cons x xs ih =>
      cases xs with
      | nil =>
          simp only [lastIsStreamingAssistant, List.getLast?_singleton,
            Bool.and_eq_false_iff, decide_eq_false_iff_not] at h
          rw [tokenUpdate, if_neg]
          rintro ⟨hr, hs⟩
          rcases h with h | h
          · exact h hr
          · rw [hs] at h
            cases h
      | cons y ys =>
          rw [tokenUpdate_cons_of_ne_nil buf x (y :: ys) (by simp), ih]
          rw [lastIsStreamingAssistant] at h ⊢
          rwa [List.getLast?_cons_cons] at h

/-- C9: when the transcript is empty or its last entry is not an assistant
entry with its streaming flag set, a `token` event leaves every transcript
entry unchanged - the fragment only reaches the hidden accumulation
buffer, never the visible transcript. -/
theorem token_discarded_when_no_stream (f : String) (s : ChatState)
    (h : lastIsStreamingAssistant s.messages = false) :
    (handleEvent (Envelope.mk "token" f) s).messages = s.messages := by
  rw [handleEvent_token]
  exact tokenUpdate_of_guard_false (s.buffer ++ f) s.messages h

/-- C9 witness: a token arriving when the transcript ends in a user entry
(and one arriving on the empty transcript) is discarded. -/
theorem token_discarded_when_no_stream_witness :
    (handleEvent (Envelope.mk "token" "x")
        (ChatState.mk [Message.mk Role.user "hi" false] true false "")).messages =
      [Message.mk Role.user "hi" false] :=
  token_discarded_when_no_stream "x"
    (ChatState.mk [Message.mk Role.user "hi" false] true false "") (by rfl)

theorem completeUpdate_cons_of_ne_nil (x : Message) (l : List Message)
    (h : l ≠ []) :
    completeUpdate (x :: l) = x :: completeUpdate l := by
  cases l with
  | nil => exact absurd rfl h
  | cons y ys => rfl

theorem completeUpdate_length (msgs : List Message) :
    (completeUpdate msgs).length = msgs.length := by
  induction msgs with
  | nil => rfl
  | cons x xs ih =>
      cases xs with
      | nil =>
          rw [completeUpdate]
          split <;> rfl
      | cons y ys =>
          rw [completeUpdate_cons_of_ne_nil x (y :: ys) (by simp),
            List.length_cons, List.length_cons, ih]

theorem completeUpdate_getD (msgs : List Message) (i : Nat) :
    ((completeUpdate msgs).getD i default).role = (msgs.getD i default).role ∧
    ((completeUpdate msgs).getD i default).content = (msgs.getD i default).content ∧
    (((completeUpdate msgs).getD i default).streaming = (msgs.getD i default).streaming ∨
      ((msgs.getD i default).streaming = true ∧
       (msgs.getD i default).role = Role.assistant ∧
       ((completeUpdate msgs).getD i default).streaming = false)) := by
  induction msgs generalizing i with
  | nil => exact ⟨rfl, rfl, Or.inl rfl⟩
  | cons x xs ih =>
      cases xs with
      | nil =>
          cases i with
          | zero =>
              rw [completeUpdate]
              by_cases hr : x.role = Role.assistant
              · rw [if_pos hr]
                cases hs : x.streaming
                · exact ⟨rfl, rfl, Or.inl hs.symm⟩
                · exact ⟨rfl, rfl, Or.inr ⟨hs, hr, rfl⟩⟩
              · rw [if_neg hr]
                exact ⟨rfl, rfl, Or.inl rfl⟩
          | succ n =>
              rw [completeUpdate]
              split <;> exact ⟨rfl, rfl, Or.inl rfl⟩
      | cons y ys =>
          cases i with
          | zero =>
              rw [completeUpdate_cons_of_ne_nil x (y :: ys) (by simp)]
              exact ⟨rfl, rfl, Or.inl rfl⟩
          | succ n =>
              rw [completeUpdate_cons_of_ne_nil x (y :: ys) (by simp),
                List.getD_cons_succ, List.getD_cons_succ]
              exact ih n

/-- C7: a `complete` event appends no entry (the transcript keeps its
length) and, position by position, preserves every entry's role and text;
an entry's streaming flag is either unchanged or - when the entry was the
in-progress assistant entry, streaming and assistant-roled - set to
false. -/
theorem complete_frame (d : String) (s : ChatState) :
    (handleEvent (Envelope.mk "complete" d) s).messages.length = s.messages.length ∧
    ∀ i : Nat,
      (((handleEvent (Envelope.mk "complete" d) s).messages.getD i default).role =
          (s.messages.getD i default).role) ∧
      (((handleEvent (Envelope.mk "complete" d) s).messages.getD i default).content =
          (s.messages.getD i default).content) ∧
      ((((handleEvent (Envelope.mk "complete" d) s).messages.getD i default).streaming =
          (s.messages.getD i default).streaming) ∨
        ((s.messages.getD i default).streaming = true ∧
         (s.messages.getD i default).role = Role.assistant ∧
         ((handleEvent (Envelope.mk "complete" d) s).messages.getD i default).streaming =
           false)) := by
  rw [handleEvent_complete]
  exact ⟨completeUpdate_length s.messages, fun i => completeUpdate_getD s.messages i⟩

/-- No entry of `msgs` has role assistant. -/
def noAssistant (msgs : List Message) : Bool :=
  msgs.all fun m => !decide (m.role = Role.assistant)

/-- No entry of `msgs` has its streaming flag set. -/
def noStreaming (msgs : List Message) : Bool :=
  msgs.all fun m => !m.streaming

/-- The transcript-level invariant claimed by the spec, phrased on the
array: every entry whose streaming flag is set is an assistant entry that
is not followed by any assistant entry - it is the most recently appended
assistant entry. (This also forces at most one streaming entry.) -/
def streamingLegal : List Message → Bool
  | [] => true
  | m :: rest =>
      (if m.streaming then decide (m.role = Role.assistant) && noAssistant rest
       else true) &&
      streamingLegal rest

/-- Event-sequence discipline under which the invariant is preserved: every
`start` event is delivered in a state whose transcript has no entry with
its streaming flag still set. -/
def startsSafe : List Envelope → ChatState → Bool
  | [], _ => true
  | e :: es, s =>
      (if e.etype = "start" then noStreaming s.messages else true) &&
      startsSafe es (handleEvent e s)

theorem noAssistant_append_singleton (msgs : List Message) (m : Message) :
    noAssistant (msgs ++ [m]) =
      (noAssistant msgs && !decide (m.role = Role.assistant)) := by
  simp [noAssistant]

theorem streamingLegal_append_start (msgs : List Message) (t : String)
    (h : noStreaming msgs = true) :
    streamingLegal (msgs ++ [⟨Role.assistant, t, true⟩]) = true := by
  induction msgs with
  | nil => simp [streamingLegal, noAssistant]
  | cons x xs ih =>
      simp only [noStreaming, List.all_cons, Bool.and_eq_true,
        Bool.not_eq_true'] at h
      rw [List.cons_append]
      simp only [streamingLegal, Bool.and_eq_true]
      refine ⟨?_, ih (by simp [noStreaming, h.2])⟩
      rw [h.1]
      simp

theorem streamingLegal_append_nonassistant (msgs : List Message) (m : Message)
    (hleg : streamingLegal msgs = true) (hstr : m.streaming = false)
    (hrole : m.role ≠ Role.assistant) :
    streamingLegal (msgs ++ [m]) = true := by
  induction msgs with
  | nil => simp [streamingLegal, hstr]
  | cons x xs ih =>
      simp only [streamingLegal, Bool.and_eq_true] at hleg
      rw [List.cons_append]
      simp only [streamingLegal, Bool.and_eq_true]
      refine ⟨?_, ih hleg.2⟩
      cases hs : x.streaming
      · simp
      · have hx := hleg.1
        rw [hs] at hx
        simp only [if_true] at hx ⊢
        rw [noAssistant_append_singleton]
        simp only [Bool.and_eq_true] at hx ⊢
        exact ⟨hx.1, hx.2, by simp [hrole]⟩

theorem noAssistant_cons (x : Message) (l : List Message) :
    noAssistant (x :: l) = (!decide (x.role = Role.assistant) && noAssistant l) :=
  rfl

theorem streamingLegal_cons (x : Message) (l : List Message) :
    streamingLegal (x :: l) =
      ((if x.streaming then decide (x.role = Role.assistant) && noAssistant l
        else true) &&
       streamingLegal l) :=
  rfl

theorem noAssistant_tokenUpdate (buf : String) (msgs : List Message) :
    noAssistant (tokenUpdate buf msgs) = noAssistant msgs := by
  induction msgs with
  | nil => rfl
  | cons x xs ih =>
      cases xs with
      | nil =>
          rw [tokenUpdate]
          split <;> simp [noAssistant]
      | cons y ys =>
          rw [tokenUpdate_cons_of_ne_nil buf x (y :: ys) (by simp),
            noAssistant_cons, noAssistant_cons, ih]

theorem streamingLegal_tokenUpdate (buf : String) (msgs : List Message) :
    streamingLegal (tokenUpdate buf msgs) = streamingLegal msgs := by
  induction msgs with
  | nil => rfl
  | cons x xs ih =>
      cases xs with
      | nil =>
          rw [tokenUpdate]
          split <;> simp [streamingLegal]
      | cons y ys =>
          rw [tokenUpdate_cons_of_ne_nil buf x (y :: ys) (by simp),
            streamingLegal_cons, streamingLegal_cons, noAssistant_tokenUpdate, ih]

theorem noAssistant_completeUpdate (msgs : List Message) :
    noAssistant (completeUpdate msgs) = noAssistant msgs := by
  induction msgs with
  | nil => rfl
  | cons x xs ih =>
      cases xs with
      | nil =>
          rw [completeUpdate]
          split <;> simp [noAssistant]
      | cons y ys =>
          rw [completeUpdate_cons_of_ne_nil x (y :: ys) (by simp),
            noAssistant_cons, noAssistant_cons, ih]

theorem streamingLegal_completeUpdate (msgs : List Message)
    (h : streamingLegal msgs = true) :
    streamingLegal (completeUpdate msgs) = true := by
  induction msgs with
  | nil => rfl
  | cons x xs ih =>
      cases xs with
      | nil =>
          rw [completeUpdate]
          split
          · simp [streamingLegal]
          · exact h
      | cons y ys =>
          rw [streamingLegal_cons, Bool.and_eq_true] at h
          rw [completeUpdate_cons_of_ne_nil x (y :: ys) (by simp),
            streamingLegal_cons, Bool.and_eq_true]
          refine ⟨?_, ih h.2⟩
          cases hs : x.streaming
          · simp
          · have hx := h.1
            rw [hs] at hx
            simp only [if_true] at hx ⊢
            rw [noAssistant_completeUpdate]
            exact hx

theorem startsSafe_cons (e : Envelope) (es : List Envelope) (s : ChatState) :
    startsSafe (e :: es) s =
      ((if e.etype = "start" then noStreaming s.messages else true) &&
       startsSafe es (handleEvent e s)) :=
  rfl

/-- One inbound event preserves the transcript invariant, provided a
`start` only arrives when no entry is streaming. -/
theorem streamingLegal_step (e : Envelope) (s : ChatState)
    (hleg : streamingLegal s.messages = true)
    (hstart : e.etype = "start" → noStreaming s.messages = true) :
    streamingLegal (handleEvent e s).messages = true := by
  obtain ⟨t, d⟩ := e
  by_cases h1 : t = "start"
  · subst h1
    show streamingLegal (s.messages ++ [⟨Role.assistant, "", true⟩]) = true
    exact streamingLegal_append_start s.messages "" (hstart rfl)
  · by_cases h2 : t = "token"
    · subst h2
      show streamingLegal (tokenUpdate (s.buffer ++ d) s.messages) = true
      rw [streamingLegal_tokenUpdate]
      exact hleg
    · by_cases h3 : t = "complete"
      · subst h3
        show streamingLegal (completeUpdate s.messages) = true
        exact streamingLegal_completeUpdate s.messages hleg
      · by_cases h4 : t = "error"
        · subst h4
          show streamingLegal (s.messages ++ [⟨Role.error, d, false⟩]) = true
          exact streamingLegal_append_nonassistant s.messages
            ⟨Role.error, d, false⟩ hleg rfl (fun h => Role.noConfusion h)
        · have hunk : handleEvent ⟨t, d⟩ s = s := by
            simp only [handleEvent]
            rw [if_neg h1, if_neg h2, if_neg h3, if_neg h4]
          rw [hunk]
          exact hleg

theorem streamingLegal_runEvents (es : List Envelope) (s : ChatState)
    (hleg : streamingLegal s.messages = true)
    (hsafe : startsSafe es s = true) :
    streamingLegal (runEvents es s).messages = true := by
  induction es generalizing s with
  | nil => exact hleg
  | cons e es ih =>
      rw [startsSafe_cons, Bool.and_eq_true] at hsafe
      rw [runEvents_cons]
      refine ih (handleEvent e s) (streamingLegal_step e s hleg ?_) hsafe.2
      intro h
      have ha := hsafe.1
      rwa [if_pos h] at ha

theorem filter_streaming_nil (msgs : List Message)
    (hleg : streamingLegal msgs = true) (hna : noAssistant msgs = true) :
    msgs.filter (fun m => m.streaming) = [] := by
  induction msgs with
  | nil => rfl
  | cons x xs ih =>
      rw [noAssistant_cons, Bool.and_eq_true] at hna
      rw [streamingLegal_cons, Bool.and_eq_true] at hleg
      have hx : x.streaming = false := by
        cases hs : x.streaming
        · rfl
        · exfalso
          have h1 := hleg.1
          rw [hs] at h1
          simp only [if_true, Bool.and_eq_true, decide_eq_true_eq] at h1
          have h2 := hna.1
          rw [h1.1] at h2
          simp at h2
      rw [List.filter_cons_of_neg (by simp [hx])]
      exact ih hleg.2 hna.2

theorem streaming_count_le_one (msgs : List Message)
    (hleg : streamingLegal msgs = true) :
    (msgs.filter fun m => m.streaming).length ≤ 1 := by
  induction msgs with
  | nil => simp
  | cons x xs ih =>
      rw [streamingLegal_cons, Bool.and_eq_true] at hleg
      cases hs : x.streaming
      · rw [List.filter_cons_of_neg (by simp [hs])]
        exact ih hleg.2
      · have hx := hleg.1
        rw [hs] at hx
        simp only [if_true, Bool.and_eq_true] at hx
        rw [List.filter_cons_of_pos (by simp [hs]),
          filter_streaming_nil xs hleg.2 hx.2]
        simp

theorem streaming_is_last_assistant (msgs : List Message)
    (hleg : streamingLegal msgs = true) :
    ∀ i : Fin msgs.length, (msgs.get i).streaming = true →
      (msgs.get i).role = Role.assistant ∧
        ∀ j : Fin msgs.length, (i : Nat) < (j : Nat) →
          (msgs.get j).role ≠ Role.assistant := by
  induction msgs with
  | nil => exact fun i => i.elim0
  | cons x xs ih =>
      rw [streamingLegal_cons, Bool.and_eq_true] at hleg
      rintro ⟨iv, hi⟩ hstr
      cases iv with
      | zero =>
          have hxs : x.streaming = true := hstr
          have hx := hleg.1
          rw [hxs] at hx
          simp only [if_true, Bool.and_eq_true, decide_eq_true_eq] at hx
          refine ⟨hx.1, ?_⟩
          rintro ⟨jv, hj⟩ hlt
          cases jv with
          | zero =>
              have hlt0 : (0 : Nat) < 0 := hlt
              exact absurd hlt0 (by omega)
          | succ m =>
              have hm : m < xs.length := Nat.lt_of_succ_lt_succ hj
              have hall := hx.2
              rw [noAssistant, List.all_eq_true] at hall
              have hmem : xs.get ⟨m, hm⟩ ∈ xs := List.get_mem xs m hm
              have := hall _ hmem
              simp only [Bool.not_eq_true', decide_eq_false_iff_not] at this
              exact this
      | succ n =>
          have hn : n < xs.length := Nat.lt_of_succ_lt_succ hi
          have hrec := ih hleg.2 ⟨n, hn⟩ hstr
          refine ⟨hrec.1, ?_⟩
          rintro ⟨jv, hj⟩ hlt
          cases jv with
          | zero =>
              have hlt0 : n + 1 < 0 := hlt
              exact absurd hlt0 (by omega)
          | succ m =>
              have hm : m < xs.length := Nat.lt_of_succ_lt_succ hj
              have hlt1 : n + 1 < m + 1 := hlt
              exact hrec.2 ⟨m, hm⟩ (Nat.lt_of_succ_lt_succ hlt1)

/-- C1 counterexample. The claim quantifies over every sequence of inbound
events; delivering two consecutive `start` events appends two entries that
are both streaming, so "at most one streaming entry" fails. -/
theorem streaming_invariant_counterexample :
    ((runEvents [Envelope.mk "start" "", Envelope.mk "start" ""]
        connectedInit).messages.filter fun m => m.streaming).length = 2 ∧
    streamingLegal (runEvents [Envelope.mk "start" "", Envelope.mk "start" ""]
        connectedInit).messages = false := by
  exact ⟨rfl, rfl⟩

/-- C1 amended: for every sequence of inbound events in which each `start`
is delivered while no transcript entry is streaming, the processed
transcript has at most one entry with its streaming flag set, and any such
entry is an assistant entry not followed by any assistant entry - the most
recently appended assistant entry. -/
theorem streaming_invariant (es : List Envelope) (s : ChatState)
    (hleg : streamingLegal s.messages = true)
    (hsafe : startsSafe es s = true) :
    ((runEvents es s).messages.filter fun m => m.streaming).length ≤ 1 ∧
    ∀ i : Fin (runEvents es s).messages.length,
      ((runEvents es s).messages.get i).streaming = true →
        ((runEvents es s).messages.get i).role = Role.assistant ∧
        ∀ j : Fin (runEvents es s).messages.length,
          (i : Nat) < (j : Nat) →
          ((runEvents es s).messages.get j).role ≠ Role.assistant := by
  have h := streamingLegal_runEvents es s hleg hsafe
  exact ⟨streaming_count_le_one _ h, streaming_is_last_assistant _ h⟩

/-- C1 witness: a two-turn session (`start`, `token`, `complete`, then a
fresh `start`, `token`) satisfies the start discipline from the fresh
connected state, and the resulting transcript has at most one streaming
entry. -/
theorem streaming_invariant_witness :
    streamingLegal connectedInit.messages = true ∧
    startsSafe [Envelope.mk "start" "", Envelope.mk "token" "a",
      Envelope.mk "complete" "", Envelope.mk "start" "",
      Envelope.mk "token" "b"] connectedInit = true ∧
    ((runEvents [Envelope.mk "start" "", Envelope.mk "token" "a",
      Envelope.mk "complete" "", Envelope.mk "start" "",
      Envelope.mk "token" "b"] connectedInit).messages.filter
        fun m => m.streaming).length ≤ 1 := by
  refine ⟨rfl, rfl, ?_⟩
  exact (streaming_invariant [Envelope.mk "start" "", Envelope.mk "token" "a",
    Envelope.mk "complete" "", Envelope.mk "start" "",
    Envelope.mk "token" "b"] connectedInit rfl rfl).1
